import Mathlib

/-!
Shallow embedding of two source files of the tracktion_engine repository:

* `AuxSendPlugin` (gain / mute logic of an aux-bus send controller), and
* `InsertPlugin` (device enumeration and classification, device-name
  resolution, the per-audio-block send/return algorithm, and the latency
  model).

Decibel values and audio samples are modelled over `ℚ` (the float
arithmetic of the source at these magnitudes is treated exactly); JUCE
`StringArray` becomes `List String`, `BigInteger` bit sets that are only
ever written at the current list size become `List Bool` growing in
lockstep with the name list, and nullable pointers become `Option`.
-/

namespace Tracktion

/-! ## AuxSendPlugin

The observable state for the gain/mute claims: the current gain (the source
stores a fader position; `volumeFaderPositionToDB`/`decibelsToVolumeFaderPosition`
are exact inverses per the spec contract, so we carry the dB value directly)
and the persisted `lastVolumeBeforeMute` property. -/

structure AuxSendState where
  gainDb : ℚ
  lastVolumeBeforeMute : ℚ
  deriving Repr, DecidableEq

/-- `AuxSendPlugin::getGainDb` (header accessor): the current gain in dB. -/
def getGainDb (s : AuxSendState) : ℚ :=
  s.gainDb

/-- `AuxSendPlugin::setGainDb`: writes the new value only when it differs
from the current one (change-detection in the source). -/
def setGainDb (s : AuxSendState) (newDb : ℚ) : AuxSendState :=
  if getGainDb s ≠ newDb then { s with gainDb := newDb } else s

/-- `AuxSendPlugin::setMute`.  Muting saves the current gain, nudges down by
0.01 dB and writes the −100 dB floor.  Unmuting resets the saved value to
0 dB when it is strictly below −100 dB, nudges up by 0.01 dB and writes the
saved value. -/
def setMute (s : AuxSendState) (b : Bool) : AuxSendState :=
  if b then
    let s1 := { s with lastVolumeBeforeMute := getGainDb s }
    let s2 := setGainDb s1 (s1.lastVolumeBeforeMute - 1/100)
    setGainDb s2 (-100)
  else
    let s1 := if s.lastVolumeBeforeMute < -100
                then { s with lastVolumeBeforeMute := 0 } else s
    let s2 := setGainDb s1 (getGainDb s1 + 1/100)
    setGainDb s2 s1.lastVolumeBeforeMute

/-- `AuxSendPlugin::isMute`: current gain at most −90 dB. -/
def isMute (s : AuxSendState) : Bool :=
  getGainDb s ≤ -90

end Tracktion

namespace Tracktion

/-! ### Helper lemmas on `setGainDb`/`setMute` -/

theorem setGainDb_gainDb (s : AuxSendState) (d : ℚ) :
    (setGainDb s d).gainDb = d := by
  unfold setGainDb
  split
  · rfl
  · next h => exact not_not.mp h

theorem setGainDb_last (s : AuxSendState) (d : ℚ) :
    (setGainDb s d).lastVolumeBeforeMute = s.lastVolumeBeforeMute := by
  unfold setGainDb
  split <;> rfl

theorem setMute_true_gainDb (s : AuxSendState) :
    (setMute s true).gainDb = -100 := by
  unfold setMute
  simp [setGainDb_gainDb]

theorem setMute_true_last (s : AuxSendState) :
    (setMute s true).lastVolumeBeforeMute = s.gainDb := by
  unfold setMute
  simp [setGainDb_last, getGainDb]

theorem setMute_false_of_not_lt (s : AuxSendState)
    (h : ¬ s.lastVolumeBeforeMute < -100) :
    setMute s false = setGainDb (setGainDb s (s.gainDb + 1/100))
                        s.lastVolumeBeforeMute := by
  unfold setMute
  simp [h, getGainDb]

/-! ### Claim theorems about `AuxSendPlugin` -/

/-- C2 counterexample: a saved pre-mute level of exactly −100 dB is "at or
below −100 dB", yet `setMute false` neither resets the saved value to 0 dB
nor sets the gain to 0 dB — the source guard is the strict `< -100.0f`. -/
theorem setMute_false_at_exact_floor_not_reset :
    (⟨-100, -100⟩ : AuxSendState).lastVolumeBeforeMute ≤ -100 ∧
    (setMute ⟨-100, -100⟩ false).gainDb ≠ 0 ∧
    (setMute ⟨-100, -100⟩ false).lastVolumeBeforeMute ≠ 0 := by
  refine ⟨le_refl _, ?_, ?_⟩ <;>
    · rw [setMute_false_of_not_lt ⟨-100, -100⟩ (by norm_num)]
      simp [setGainDb_gainDb, setGainDb_last]

/-- C2 (amended): for every saved pre-mute level strictly below −100 dB,
`setMute false` resets the saved value to 0 dB and sets the gain to 0 dB. -/
theorem setMute_false_resets_below_floor (s : AuxSendState)
    (h : s.lastVolumeBeforeMute < -100) :
    (setMute s false).gainDb = 0 ∧
    (setMute s false).lastVolumeBeforeMute = 0 := by
  unfold setMute
  simp only [Bool.false_eq_true, if_false, h, if_pos]
  exact ⟨setGainDb_gainDb _ _, by rw [setGainDb_last, setGainDb_last]⟩

/-- Witness for the amended C2 at a saved level of −101 dB. -/
theorem setMute_false_resets_below_floor_witness :
    ((-101 : ℚ) < -100) ∧
    ((setMute ⟨-30, -101⟩ false).gainDb = 0 ∧
     (setMute ⟨-30, -101⟩ false).lastVolumeBeforeMute = 0) :=
  ⟨by norm_num, setMute_false_resets_below_floor ⟨-30, -101⟩ (by norm_num)⟩

/-- C3: from any gain strictly above −100 dB, `setMute true` then
`setMute false` restores the gain to within 0.01 dB of the start (in fact
exactly). -/
theorem mute_unmute_roundtrip (s : AuxSendState) (h : -100 < s.gainDb) :
    |(setMute (setMute s true) false).gainDb - s.gainDb| ≤ 1/100 := by
  have hlast : (setMute s true).lastVolumeBeforeMute = s.gainDb :=
    setMute_true_last s
  have hnl : ¬ (setMute s true).lastVolumeBeforeMute < -100 := by
    rw [hlast]; exact not_lt.mpr (le_of_lt h)
  rw [setMute_false_of_not_lt _ hnl, setGainDb_gainDb, hlast]
  simp

/-- Witness for C3 at a starting gain of 0 dB. -/
theorem mute_unmute_roundtrip_witness :
    ((-100 : ℚ) < 0) ∧
    |(setMute (setMute ⟨0, 0⟩ true) false).gainDb - (0 : ℚ)| ≤ 1/100 :=
  ⟨by norm_num, mute_unmute_roundtrip ⟨0, 0⟩ (by norm_num)⟩

/-- C4: `isMute` holds iff the current gain is at most −90 dB; it is false
at −89.9 dB and true at −100 dB. -/
theorem isMute_iff_le_neg90 :
    (∀ s : AuxSendState, isMute s = true ↔ getGainDb s ≤ -90) ∧
    isMute ⟨-899/10, 0⟩ = false ∧
    isMute ⟨-100, 0⟩ = true := by
  refine ⟨fun s => ?_, ?_, ?_⟩
  · unfold isMute
    exact decide_eq_true_iff
  · simp only [isMute, getGainDb, decide_eq_false_iff_not, not_le]
    norm_num
  · simp only [isMute, getGainDb, decide_eq_true_eq]
    norm_num

/-- C10: muting while already at the −100 dB floor overwrites the saved
pre-mute level with −100 dB; the following unmute leaves the gain at
−100 dB, the saved level at −100 dB, and `isMute` still true. -/
theorem setMute_at_floor_locks (s : AuxSendState) (h : s.gainDb = -100) :
    (setMute s true).lastVolumeBeforeMute = -100 ∧
    (setMute (setMute s true) false).gainDb = -100 ∧
    (setMute (setMute s true) false).lastVolumeBeforeMute = -100 ∧
    isMute (setMute (setMute s true) false) = true := by
  have h1 : (setMute s true).lastVolumeBeforeMute = -100 := by
    rw [setMute_true_last, h]
  have hnl : ¬ (setMute s true).lastVolumeBeforeMute < -100 := by
    rw [h1]; norm_num
  have h2 : (setMute (setMute s true) false).gainDb = -100 := by
    rw [setMute_false_of_not_lt _ hnl, setGainDb_gainDb, h1]
  have h3 : (setMute (setMute s true) false).lastVolumeBeforeMute = -100 := by
    rw [setMute_false_of_not_lt _ hnl, setGainDb_last, setGainDb_last, h1]
  refine ⟨h1, h2, h3, ?_⟩
  simp only [isMute, getGainDb, h2, decide_eq_true_eq]
  norm_num

/-- Witness for C10 at the muted state ⟨−100, 5⟩. -/
theorem setMute_at_floor_locks_witness :
    ((⟨-100, 5⟩ : AuxSendState).gainDb = -100) ∧
    ((setMute ⟨-100, 5⟩ true).lastVolumeBeforeMute = -100 ∧
     (setMute (setMute ⟨-100, 5⟩ true) false).gainDb = -100 ∧
     (setMute (setMute ⟨-100, 5⟩ true) false).lastVolumeBeforeMute = -100 ∧
     isMute (setMute (setMute ⟨-100, 5⟩ true) false) = true) :=
  ⟨rfl, setMute_at_floor_locks ⟨-100, 5⟩ rfl⟩

/-! ## InsertPlugin: device enumeration and name resolution

`MidiInputDevice`/`MidiOutputDevice` dynamic casts become an `isMidi` flag;
`dm.getInputDevice i` / `dm.getOutputDeviceAt i` may return null, hence
`List (Option _)`; JUCE `BigInteger`s written only at bit position
`s.size()` become `List Bool` lists growing in lockstep with the name
list. -/

inductive DeviceType where
  | audioDevice
  | midiDevice
  | noDevice
  deriving Repr, DecidableEq

structure InputDevice where
  enabled : Bool
  isMidi : Bool
  name : String
  devAlias : String
  deriving Repr, DecidableEq

structure OutputDevice where
  enabled : Bool
  isMidi : Bool
  connectedToExternalController : Bool
  name : String
  devAlias : String
  deriving Repr, DecidableEq

/-- The four accumulators of the enumeration helpers: `s`, `a`, `hasAudio`
and `hasMidi`. -/
structure EnumState where
  names : List String
  aliases : List String
  hasAudio : List Bool
  hasMidi : List Bool
  deriving Repr, DecidableEq

def emptyEnum : EnumState := ⟨[], [], [], []⟩

/-- One loop iteration of `getPossibleInputDeviceNames`: a disabled device
is skipped, otherwise the MIDI/audio bit at index `s.size()` is set and the
name and alias are appended. -/
def addInputDevice (st : EnumState) (d : InputDevice) : EnumState :=
  if ! d.enabled then st
  else
    { names := st.names ++ [d.name]
      aliases := st.aliases ++ [d.devAlias]
      hasAudio := st.hasAudio ++ [! d.isMidi]
      hasMidi := st.hasMidi ++ [d.isMidi] }

/-- `getPossibleInputDeviceNames`: appends every enabled input device to
the accumulators (null device slots are skipped). -/
def getPossibleInputDeviceNames (devs : List (Option InputDevice))
    (st : EnumState) : EnumState :=
  devs.foldl (fun acc od =>
    match od with
    | none => acc
    | some d => addInputDevice acc d) st

/-- One loop iteration of `getPossibleOutputDeviceNames`: skip disabled
devices and MIDI outputs connected to an external controller. -/
def addOutputDevice (st : EnumState) (d : OutputDevice) : EnumState :=
  if ! d.enabled then st
  else if d.isMidi && d.connectedToExternalController then st
  else
    { names := st.names ++ [d.name]
      aliases := st.aliases ++ [d.devAlias]
      hasAudio := st.hasAudio ++ [! d.isMidi]
      hasMidi := st.hasMidi ++ [d.isMidi] }

/-- `getPossibleOutputDeviceNames`. -/
def getPossibleOutputDeviceNames (devs : List (Option OutputDevice))
    (st : EnumState) : EnumState :=
  devs.foldl (fun acc od =>
    match od with
    | none => acc
    | some d => addOutputDevice acc d) st

/-- JUCE `StringArray::indexOf`: index of the first occurrence, `-1` when
absent. -/
def indexOf : List String → String → Int
  | [], _ => -1
  | x :: xs, n =>
      if x = n then 0
      else if indexOf xs n < 0 then -1 else indexOf xs n + 1

/-- JUCE `BigInteger::operator[]`: `false` for any out-of-range (in
particular negative) bit index. -/
def getBit (bits : List Bool) (i : Int) : Bool :=
  if h : 0 ≤ i ∧ i.toNat < bits.length then bits.get ⟨i.toNat, h.2⟩
  else false

/-- The `setDeviceType` lambda of `InsertPlugin::updateDeviceTypes`. -/
def setDeviceType (audio midi : List Bool) (index : Int) : DeviceType :=
  if getBit audio index then .audioDevice
  else if getBit midi index then .midiDevice
  else .noDevice

/-- Name resolution as performed by `updateDeviceTypes`: look the
configured name up in the accumulated name list and classify by the bit
lists. -/
def resolveCapability (st : EnumState) (n : String) : DeviceType :=
  setDeviceType st.hasAudio st.hasMidi (indexOf st.names n)

/-- The device-manager snapshot: input and output device slots in
enumeration order. -/
structure DeviceManagerState where
  inputs : List (Option InputDevice)
  outputs : List (Option OutputDevice)
  deriving Repr, DecidableEq

/-- `InsertPlugin::updateDeviceTypes`: resolves `(returnDeviceType,
sendDeviceType)`.  The accumulator arrays are shared between the two
enumerations and are not cleared in between, exactly as in the source. -/
def updateDeviceTypes (dm : DeviceManagerState)
    (inputDevice outputDevice : String) : DeviceType × DeviceType :=
  let st1 := getPossibleInputDeviceNames dm.inputs emptyEnum
  let returnDeviceType := resolveCapability st1 inputDevice
  let st2 := getPossibleOutputDeviceNames dm.outputs st1
  let sendDeviceType := resolveCapability st2 outputDevice
  (returnDeviceType, sendDeviceType)

/-- Modelled from the spec: the "return" direction resolved against the
input devices alone, as §4.2 of the spec describes re-resolution. -/
def returnTypeSpec (dm : DeviceManagerState) (inputDevice : String) :
    DeviceType :=
  resolveCapability (getPossibleInputDeviceNames dm.inputs emptyEnum)
    inputDevice

/-- Modelled from the spec: the "send" direction resolved against the
output devices alone, as §4.2 of the spec describes re-resolution. -/
def sendTypeSpec (dm : DeviceManagerState) (outputDevice : String) :
    DeviceType :=
  resolveCapability (getPossibleOutputDeviceNames dm.outputs emptyEnum)
    outputDevice

/-- The output devices the enumeration keeps: enabled, and not a MIDI
output connected to an external controller. -/
def outIncluded : List (Option OutputDevice) → List OutputDevice
  | [] => []
  | none :: devs => outIncluded devs
  | some d :: devs =>
      if d.enabled && ! (d.isMidi && d.connectedToExternalController)
        then d :: outIncluded devs else outIncluded devs

/-- The input devices the enumeration keeps: the enabled ones. -/
def inIncluded : List (Option InputDevice) → List InputDevice
  | [] => []
  | none :: devs => inIncluded devs
  | some d :: devs =>
      if d.enabled then d :: inIncluded devs else inIncluded devs

/-- Eligibility of one output-device slot, as a Boolean on the slot. -/
def outEligible (od : Option OutputDevice) : Bool :=
  match od with
  | none => false
  | some d => d.enabled && ! (d.isMidi && d.connectedToExternalController)

/-! ### Lemmas on `indexOf` and `getBit` -/

theorem neg_one_le_indexOf (l : List String) (n : String) :
    -1 ≤ indexOf l n := by
  induction l with
  | nil => simp [indexOf]
  | cons x xs ih =>
    unfold indexOf
    split
    · omega
    · split <;> omega

theorem indexOf_of_not_mem (l : List String) (n : String) (h : n ∉ l) :
    indexOf l n = -1 := by
  induction l with
  | nil => rfl
  | cons x xs ih =>
    simp only [List.mem_cons, not_or] at h
    unfold indexOf
    rw [if_neg (fun hx => h.1 hx.symm), ih h.2]
    simp

theorem indexOf_nonneg_of_mem (l : List String) (n : String) (h : n ∈ l) :
    0 ≤ indexOf l n := by
  induction l with
  | nil => simp at h
  | cons x xs ih =>
    unfold indexOf
    split
    · omega
    · next hx =>
      have hm : n ∈ xs := by
        rcases List.mem_cons.mp h with h1 | h1
        · exact absurd h1.symm hx
        · exact h1
      have := ih hm
      split <;> omega

theorem indexOf_cons (x : String) (xs : List String) (n : String) :
    indexOf (x :: xs) n =
      if x = n then 0
      else if indexOf xs n < 0 then -1 else indexOf xs n + 1 := rfl

theorem indexOf_nodup_get (l : List String) (n : String) (i : ℕ)
    (hi : i < l.length) (hnd : l.Nodup) (hg : l.get ⟨i, hi⟩ = n) :
    indexOf l n = (i : Int) := by
  induction l generalizing i with
  | nil => simp at hi
  | cons x xs ih =>
    rcases List.nodup_cons.mp hnd with ⟨hx, hnd2⟩
    cases i with
    | zero =>
      simp only [List.get] at hg
      rw [indexOf_cons, if_pos hg]
      rfl
    | succ j =>
      have hj : j < xs.length := by simpa using hi
      have hgj : xs.get ⟨j, hj⟩ = n := hg
      have hmem : n ∈ xs := hgj ▸ List.get_mem xs j hj
      have hxn : ¬ x = n := fun he => hx (he ▸ hmem)
      have hrec := ih j hj hnd2 hgj
      rw [indexOf_cons, if_neg hxn, hrec]
      have hnn : ¬ ((j : Int) < 0) := by omega
      rw [if_neg hnn]
      omega

theorem indexOf_append_of_not_mem (l1 l2 : List String) (n : String)
    (h : n ∉ l1) :
    indexOf (l1 ++ l2) n =
      if n ∈ l2 then (l1.length : Int) + indexOf l2 n else -1 := by
  induction l1 with
  | nil =>
    by_cases hm : n ∈ l2
    · simp [hm]
    · simp [hm, indexOf_of_not_mem l2 n hm]
  | cons x l1 ih =>
    simp only [List.mem_cons, not_or] at h
    have ihr := ih h.2
    by_cases hm : n ∈ l2
    · have h2 : 0 ≤ indexOf l2 n := indexOf_nonneg_of_mem l2 n hm
      simp only [hm, if_true] at ihr
      rw [List.cons_append, indexOf_cons, if_neg (fun hx => h.1 hx.symm), ihr]
      have hnn : ¬ ((l1.length : Int) + indexOf l2 n < 0) := by omega
      rw [if_neg hnn, if_pos hm, List.length_cons]
      push_cast
      ring
    · simp only [hm, if_false] at ihr
      rw [List.cons_append, indexOf_cons, if_neg (fun hx => h.1 hx.symm), ihr,
          if_neg hm]
      norm_num

theorem getBit_neg (bits : List Bool) (i : Int) (h : i < 0) :
    getBit bits i = false := by
  unfold getBit
  rw [dif_neg]
  omega

theorem getBit_coe (bits : List Bool) (i : ℕ) (h : i < bits.length) :
    getBit bits (i : Int) = bits.get ⟨i, h⟩ := by
  unfold getBit
  have hc : (0 : Int) ≤ (i : Int) ∧ ((i : Int)).toNat < bits.length := by
    omega
  rw [dif_pos hc]
  have ht : ((i : Int)).toNat = i := by omega
  simp only [ht]

theorem getBit_append_add (a b : List Bool) (j : Int) (hj : 0 ≤ j) :
    getBit (a ++ b) ((a.length : Int) + j) = getBit b j := by
  unfold getBit
  have ht : ((a.length : Int) + j).toNat = a.length + j.toNat := by omega
  by_cases hb : j.toNat < b.length
  · have h1 : (0 : Int) ≤ (a.length : Int) + j ∧
        ((a.length : Int) + j).toNat < (a ++ b).length := by
      rw [List.length_append]; omega
    rw [dif_pos h1, dif_pos ⟨hj, hb⟩]
    simp only [List.get_eq_getElem, ht]
    rw [List.getElem_append_right]
    · have hidx : a.length + j.toNat - a.length = j.toNat := by omega
      simp only [hidx]
    · omega
  · have hn1 : ¬ ((0 : Int) ≤ (a.length : Int) + j ∧
        ((a.length : Int) + j).toNat < (a ++ b).length) := by
      rw [List.length_append]; omega
    have hn2 : ¬ ((0 : Int) ≤ j ∧ j.toNat < b.length) := by omega
    rw [dif_neg hn1, dif_neg hn2]

/-! ### Characterization of the enumeration helpers -/

theorem addInputDevice_eq (st : EnumState) (d : InputDevice) :
    addInputDevice st d =
      if d.enabled then
        ⟨st.names ++ [d.name], st.aliases ++ [d.devAlias],
         st.hasAudio ++ [! d.isMidi], st.hasMidi ++ [d.isMidi]⟩
      else st := by
  unfold addInputDevice
  cases hd : d.enabled <;> simp [hd]

theorem addOutputDevice_eq (st : EnumState) (d : OutputDevice) :
    addOutputDevice st d =
      if d.enabled && ! (d.isMidi && d.connectedToExternalController) then
        ⟨st.names ++ [d.name], st.aliases ++ [d.devAlias],
         st.hasAudio ++ [! d.isMidi], st.hasMidi ++ [d.isMidi]⟩
      else st := by
  unfold addOutputDevice
  cases hd : d.enabled <;>
    cases hm : d.isMidi && d.connectedToExternalController <;>
      simp [hd, hm]

theorem inIncluded_cons_some (d : InputDevice) (devs : List (Option InputDevice)) :
    inIncluded (some d :: devs) =
      if d.enabled then d :: inIncluded devs else inIncluded devs := by
  simp [inIncluded]

theorem outIncluded_cons_some (d : OutputDevice)
    (devs : List (Option OutputDevice)) :
    outIncluded (some d :: devs) =
      if d.enabled && ! (d.isMidi && d.connectedToExternalController)
        then d :: outIncluded devs else outIncluded devs := by
  simp [outIncluded]

theorem inEnum_eq (devs : List (Option InputDevice)) (st : EnumState) :
    getPossibleInputDeviceNames devs st =
      ⟨st.names ++ (inIncluded devs).map InputDevice.name,
       st.aliases ++ (inIncluded devs).map InputDevice.devAlias,
       st.hasAudio ++ (inIncluded devs).map (fun d => ! d.isMidi),
       st.hasMidi ++ (inIncluded devs).map InputDevice.isMidi⟩ := by
  induction devs generalizing st with
  | nil => simp [getPossibleInputDeviceNames, inIncluded]
  | cons od devs ih =>
    cases od with
    | none =>
      show getPossibleInputDeviceNames devs st = _
      rw [ih]
      rfl
    | some d =>
      show getPossibleInputDeviceNames devs (addInputDevice st d) = _
      rw [ih, addInputDevice_eq, inIncluded_cons_some]
      cases hd : d.enabled
      · rw [if_neg (by simp), if_neg (by simp)]
      · rw [if_pos rfl, if_pos rfl]
        simp

theorem outEnum_eq (devs : List (Option OutputDevice)) (st : EnumState) :
    getPossibleOutputDeviceNames devs st =
      ⟨st.names ++ (outIncluded devs).map OutputDevice.name,
       st.aliases ++ (outIncluded devs).map OutputDevice.devAlias,
       st.hasAudio ++ (outIncluded devs).map (fun d => ! d.isMidi),
       st.hasMidi ++ (outIncluded devs).map OutputDevice.isMidi⟩ := by
  induction devs generalizing st with
  | nil => simp [getPossibleOutputDeviceNames, outIncluded]
  | cons od devs ih =>
    cases od with
    | none =>
      show getPossibleOutputDeviceNames devs st = _
      rw [ih]
      rfl
    | some d =>
      show getPossibleOutputDeviceNames devs (addOutputDevice st d) = _
      rw [ih, addOutputDevice_eq, outIncluded_cons_some]
      cases he : d.enabled && ! (d.isMidi && d.connectedToExternalController)
      · rw [if_neg (by simp), if_neg (by simp)]
      · rw [if_pos rfl, if_pos rfl]
        simp

theorem outIncluded_filter (devs : List (Option OutputDevice)) :
    outIncluded (devs.filter outEligible) = outIncluded devs := by
  induction devs with
  | nil => rfl
  | cons od devs ih =>
    cases od with
    | none =>
      rw [show List.filter outEligible (none :: devs)
            = List.filter outEligible devs from by simp [outEligible]]
      rw [ih]
      rfl
    | some d =>
      have hel : outEligible (some d)
          = (d.enabled && ! (d.isMidi && d.connectedToExternalController)) := rfl
      cases he : d.enabled && ! (d.isMidi && d.connectedToExternalController)
      · rw [show List.filter outEligible (some d :: devs)
              = List.filter outEligible devs from by
            rw [List.filter_cons, hel, he]; simp]
        rw [ih, outIncluded_cons_some, if_neg (by rw [he]; simp)]
      · rw [show List.filter outEligible (some d :: devs)
              = some d :: List.filter outEligible devs from by
            rw [List.filter_cons, hel, he]; simp]
        rw [outIncluded_cons_some, outIncluded_cons_some,
            if_pos (by rw [he]), if_pos (by rw [he]), ih]

theorem mem_outIncluded (devs : List (Option OutputDevice)) (d : OutputDevice) :
    d ∈ outIncluded devs ↔
      some d ∈ devs ∧
        (d.enabled && ! (d.isMidi && d.connectedToExternalController)) = true := by
  induction devs with
  | nil => simp [outIncluded]
  | cons od devs ih =>
    cases od with
    | none =>
      show d ∈ outIncluded devs ↔ _
      rw [ih]
      simp
    | some e =>
      rw [outIncluded_cons_some]
      cases he : e.enabled && ! (e.isMidi && e.connectedToExternalController)
      · rw [if_neg (by simp), ih]
        constructor
        · rintro ⟨h1, h2⟩
          exact ⟨List.mem_cons_of_mem _ h1, h2⟩
        · rintro ⟨h1, h2⟩
          rcases List.mem_cons.mp h1 with h1 | h1
          · exfalso
            obtain rfl : d = e := Option.some.inj h1
            rw [he] at h2
            exact Bool.false_ne_true h2
          · exact ⟨h1, h2⟩
      · rw [if_pos rfl]
        constructor
        · intro hm
          rcases List.mem_cons.mp hm with h1 | h1
          · subst h1
            exact ⟨List.mem_cons_self _ _, he⟩
          · rcases ih.mp h1 with ⟨h2, h3⟩
            exact ⟨List.mem_cons_of_mem _ h2, h3⟩
        · rintro ⟨h1, h2⟩
          rcases List.mem_cons.mp h1 with h1 | h1
          · obtain rfl : d = e := Option.some.inj h1
            exact List.mem_cons_self _ _
          · exact List.mem_cons_of_mem _ (ih.mpr ⟨h1, h2⟩)

theorem setDeviceType_neg_one (a m : List Bool) :
    setDeviceType a m (-1) = DeviceType.noDevice := by
  unfold setDeviceType
  rw [getBit_neg _ _ (by norm_num), getBit_neg _ _ (by norm_num)]
  simp

theorem setDeviceType_append (a1 m1 a2 m2 : List Bool) (k : ℕ)
    (ha : a1.length = k) (hm : m1.length = k) (j : Int) (hj : 0 ≤ j) :
    setDeviceType (a1 ++ a2) (m1 ++ m2) ((k : Int) + j)
      = setDeviceType a2 m2 j := by
  subst ha
  unfold setDeviceType
  rw [getBit_append_add a1 a2 j hj,
      show ((a1.length : Int) + j) = ((m1.length : Int) + j) from by rw [hm],
      getBit_append_add m1 m2 j hj]

/-! ### Claim theorems about device enumeration and resolution -/

/-- C6: a MIDI output connected to an external controller, and any
disabled device, are skipped entirely by the output enumeration: the
result equals the enumeration of the eligible devices alone (no list
slot, no capability bit), and every name in the list is the name of some
eligible device. -/
theorem output_enumeration_skips_ineligible
    (devs : List (Option OutputDevice)) (st : EnumState) (n : String) :
    getPossibleOutputDeviceNames devs st
        = getPossibleOutputDeviceNames (devs.filter outEligible) st ∧
    (n ∈ (getPossibleOutputDeviceNames devs emptyEnum).names →
      ∃ d : OutputDevice, some d ∈ devs ∧ d.enabled = true ∧
        ¬ (d.isMidi = true ∧ d.connectedToExternalController = true) ∧
        d.name = n) := by
  constructor
  · rw [outEnum_eq, outEnum_eq, outIncluded_filter]
  · intro hm
    rw [outEnum_eq] at hm
    simp only [emptyEnum, List.nil_append] at hm
    rcases List.mem_map.mp hm with ⟨d, hd, hname⟩
    rcases (mem_outIncluded devs d).mp hd with ⟨h1, h2⟩
    rw [Bool.and_eq_true] at h2
    refine ⟨d, h1, h2.1, ?_, hname⟩
    intro hc
    have hb := h2.2
    rw [hc.1, hc.2] at hb
    simp at hb

/-- Witness for C6: the name of an eligible audio output is traced back to
that device. -/
theorem output_enumeration_skips_ineligible_witness :
    ∃ d : OutputDevice,
      some d ∈ [some (⟨true, false, false, "A", "a"⟩ : OutputDevice)] ∧
      d.enabled = true ∧
      ¬ (d.isMidi = true ∧ d.connectedToExternalController = true) ∧
      d.name = "A" :=
  (output_enumeration_skips_ineligible
      [some ⟨true, false, false, "A", "a"⟩] emptyEnum "A").2 (by decide)

/-- C7: resolving a configured name absent from the enumerated name list
yields `noDevice` (the function is total, so no error is possible), and a
name sitting at index `i` of a duplicate-free name list resolves to that
index's classification: audio if the audio bit is set, else MIDI if the
MIDI bit is set, else none. -/
theorem resolveCapability_correct (st : EnumState) (n : String) :
    (n ∉ st.names → resolveCapability st n = DeviceType.noDevice) ∧
    (∀ i : ℕ, ∀ hi : i < st.names.length, st.names.Nodup →
      st.names.get ⟨i, hi⟩ = n →
      resolveCapability st n =
        (if getBit st.hasAudio (i : Int) then DeviceType.audioDevice
         else if getBit st.hasMidi (i : Int) then DeviceType.midiDevice
         else DeviceType.noDevice)) := by
  constructor
  · intro h
    unfold resolveCapability
    rw [indexOf_of_not_mem _ _ h, setDeviceType_neg_one]
  · intro i hi hnd hg
    unfold resolveCapability setDeviceType
    rw [indexOf_nodup_get st.names n i hi hnd hg]

/-- Witness for C7: in a two-device list the MIDI name at index 1 resolves
to the MIDI capability. -/
theorem resolveCapability_correct_witness :
    resolveCapability ⟨["A", "M"], ["a", "m"], [true, false], [false, true]⟩
        "M" = DeviceType.midiDevice := by
  have h := (resolveCapability_correct
      ⟨["A", "M"], ["a", "m"], [true, false], [false, true]⟩ "M").2 1
      (by decide) (by decide) rfl
  rw [h]
  decide

/-- A device manager in which an enabled MIDI input device and an enabled
audio output device share the name "X". -/
def conflictDM : DeviceManagerState :=
  ⟨[some ⟨true, true, "X", "x"⟩], [some ⟨true, false, false, "X", "y"⟩]⟩

/-- C1 counterexample: with `conflictDM`, the configured output name "X"
resolves through the shared (uncleared) accumulator arrays to the *input*
device's MIDI capability, not to the output device's audio capability as
the claim requires. -/
theorem send_resolution_sees_input_names :
    (updateDeviceTypes conflictDM "" "X").2 = DeviceType.midiDevice ∧
    sendTypeSpec conflictDM "X" = DeviceType.audioDevice ∧
    (updateDeviceTypes conflictDM "" "X").2 ≠ sendTypeSpec conflictDM "X" := by
  refine ⟨?_, ?_, ?_⟩ <;> decide

/-- C1 (amended): the return capability is resolved against the input
enumeration alone, and the send capability against the concatenation of
the input and output enumerations; when the configured output name does
not occur among the enumerated input names the send capability agrees
with resolution against the output devices alone. -/
theorem updateDeviceTypes_directions (dm : DeviceManagerState)
    (inN outN : String)
    (h : outN ∉ (getPossibleInputDeviceNames dm.inputs emptyEnum).names) :
    (updateDeviceTypes dm inN outN).1 = returnTypeSpec dm inN ∧
    (updateDeviceTypes dm inN outN).2 = sendTypeSpec dm outN := by
  refine ⟨rfl, ?_⟩
  show resolveCapability
      (getPossibleOutputDeviceNames dm.outputs
        (getPossibleInputDeviceNames dm.inputs emptyEnum)) outN
    = resolveCapability (getPossibleOutputDeviceNames dm.outputs emptyEnum)
        outN
  have hin := inEnum_eq dm.inputs emptyEnum
  have hlenA :
      (getPossibleInputDeviceNames dm.inputs emptyEnum).hasAudio.length
        = (getPossibleInputDeviceNames dm.inputs emptyEnum).names.length := by
    rw [hin]; simp [emptyEnum]
  have hlenM :
      (getPossibleInputDeviceNames dm.inputs emptyEnum).hasMidi.length
        = (getPossibleInputDeviceNames dm.inputs emptyEnum).names.length := by
    rw [hin]; simp [emptyEnum]
  unfold resolveCapability
  rw [outEnum_eq dm.outputs (getPossibleInputDeviceNames dm.inputs emptyEnum),
      outEnum_eq dm.outputs emptyEnum]
  dsimp only
  simp only [show emptyEnum.names = ([] : List String) from rfl,
             show emptyEnum.hasAudio = ([] : List Bool) from rfl,
             show emptyEnum.hasMidi = ([] : List Bool) from rfl,
             List.nil_append]
  rw [indexOf_append_of_not_mem _ _ _ h]
  by_cases hm : outN ∈ (outIncluded dm.outputs).map OutputDevice.name
  · rw [if_pos hm]
    exact setDeviceType_append _ _ _ _ _ hlenA hlenM _
      (indexOf_nonneg_of_mem _ _ hm)
  · rw [if_neg hm, indexOf_of_not_mem _ _ hm, setDeviceType_neg_one,
        setDeviceType_neg_one]

/-- A device manager with distinct input and output device names. -/
def splitDM : DeviceManagerState :=
  ⟨[some ⟨true, false, "In", "i"⟩], [some ⟨true, true, false, "Out", "o"⟩]⟩

/-- Witness for the amended C1 on `splitDM`. -/
theorem updateDeviceTypes_directions_witness :
    ("Out" ∉ (getPossibleInputDeviceNames splitDM.inputs emptyEnum).names) ∧
    ((updateDeviceTypes splitDM "In" "Out").1 = returnTypeSpec splitDM "In" ∧
     (updateDeviceTypes splitDM "In" "Out").2 = sendTypeSpec splitDM "Out") :=
  ⟨by decide, updateDeviceTypes_directions splitDM "In" "Out" (by decide)⟩

/-! ## InsertPlugin: buffers, latency and the per-block algorithm

Audio buffers are channel lists of sample lists over `ℚ`; MIDI messages
are an abstract payload only moved around by merges. -/

abbrev MidiMessage := ℕ

/-- `AudioBuffer::clear (start, num)` on one channel: the samples of
`[start, start+num)` become zero, all others are kept. -/
def clearRow (ch : List ℚ) (start num : ℕ) : List ℚ :=
  ch.take start ++ List.replicate (min num (ch.length - start)) 0
    ++ ch.drop (start + num)

/-- `destBuffer->clear (bufferStartSample, bufferNumSamples)`: clear the
block's sample range on every channel. -/
def clearRange (buf : List (List ℚ)) (start num : ℕ) : List (List ℚ) :=
  buf.map (fun ch => clearRow ch start num)

/-- choc `copyIntersection` on one channel: the common frame prefix comes
from the source, the destination keeps its tail and its length. -/
def copyRow (d s : List ℚ) : List ℚ :=
  s.take d.length ++ d.drop s.length

/-- choc `copyIntersection`: copy the overlapping channel/frame region of
the source into the destination, keeping the destination's dimensions. -/
def copyIntersection : List (List ℚ) → List (List ℚ) → List (List ℚ)
  | [], _ => []
  | dst, [] => dst
  | d :: dst, s :: src => copyRow d s :: copyIntersection dst src

/-- `copyIntersection (toBufferView (dest).fromFrame (start), src)`:
write `src` into `dest` starting at frame `start`, within the
intersecting region. -/
def writeFromFrame (dest : List (List ℚ)) (start : ℕ)
    (src : List (List ℚ)) : List (List ℚ) :=
  List.zipWith (fun d s => d.take start ++ copyRow (d.drop start) s) dest src
    ++ dest.drop src.length

/-- The buffer-related state of one `InsertPlugin` instance. -/
structure InsertState where
  sendBuffer : List (List ℚ)
  returnBuffer : List (List ℚ)
  sendMidiBuffer : List MidiMessage
  returnMidiBuffer : List MidiMessage
  sendDeviceType : DeviceType
  returnDeviceType : DeviceType
  latencySeconds : ℚ
  manualAdjustMs : ℚ
  deriving Repr, DecidableEq

/-- The per-block render context: nullable destination audio buffer and
MIDI list, and this block's sample range. -/
structure PluginRenderContext where
  destBuffer : Option (List (List ℚ))
  bufferStartSample : ℕ
  bufferNumSamples : ℕ
  bufferForMidiMessages : Option (List MidiMessage)
  deriving Repr, DecidableEq

structure PluginInitialisationInfo where
  blockSizeSamples : ℕ
  sampleRate : ℚ
  deriving Repr, DecidableEq

/-- `resize ({2u, blockSizeSamples})` followed by `clear()`. -/
def zeroBuffer (channels frames : ℕ) : List (List ℚ) :=
  List.replicate channels (List.replicate frames 0)

/-- `InsertPlugin::initialiseWithoutStopping`: recompute the latency
model. -/
def initialiseWithoutStopping (s : InsertState)
    (info : PluginInitialisationInfo) : InsertState :=
  { s with latencySeconds :=
      s.manualAdjustMs / 1000 + (info.blockSizeSamples : ℚ) / info.sampleRate }

/-- `InsertPlugin::initialise`: resize and clear both audio buffers to
2 × blockSize, then recompute latency. -/
def initialise (s : InsertState) (info : PluginInitialisationInfo) :
    InsertState :=
  initialiseWithoutStopping
    { s with sendBuffer := zeroBuffer 2 info.blockSizeSamples,
             returnBuffer := zeroBuffer 2 info.blockSizeSamples } info

/-- `InsertPlugin::deinitialise`: release the audio buffers and clear the
MIDI buffers. -/
def deinitialise (s : InsertState) : InsertState :=
  { s with sendBuffer := [], returnBuffer := [],
           sendMidiBuffer := [], returnMidiBuffer := [] }

/-- `InsertPlugin::getLatencySeconds`. -/
def getLatencySeconds (s : InsertState) : ℚ :=
  s.latencySeconds

/-- Step 1 of `applyToBuffer`: capture the live block into the send
buffers (audio: intersection copy from the block's range; MIDI: clear the
send MIDI buffer, then move all live events into it). -/
def fillSendStep (s : InsertState) (fc : PluginRenderContext) :
    InsertState × PluginRenderContext :=
  if s.sendDeviceType = DeviceType.audioDevice then
    match fc.destBuffer with
    | some db =>
        ({ s with sendBuffer := (copyIntersection s.sendBuffer
             (db.map (List.drop fc.bufferStartSample))) },
         fc)
    | none => (s, fc)
  else if s.sendDeviceType = DeviceType.midiDevice then
    match fc.bufferForMidiMessages with
    | some mb =>
        ({ s with sendMidiBuffer := mb },
         { fc with bufferForMidiMessages := some [] })
    | none => (s, fc)
  else (s, fc)

/-- Step 2 of `applyToBuffer`: unconditionally clear the live MIDI event
list and the live destination samples of this block's range (each only
when the nullable buffer is present). -/
def clearContextStep (start num : ℕ) (fc : PluginRenderContext) :
    PluginRenderContext :=
  { fc with
      bufferForMidiMessages := fc.bufferForMidiMessages.map (fun _ => []),
      destBuffer := fc.destBuffer.map (fun db => clearRange db start num) }

/-- Step 4 of `applyToBuffer`: copy the return buffers back into the
context (audio: intersection copy into the block's range; MIDI: move the
return events into the live list, draining the return buffer). -/
def returnStep (s : InsertState) (fc : PluginRenderContext) (start : ℕ) :
    InsertState × PluginRenderContext :=
  if s.returnDeviceType = DeviceType.audioDevice then
    match fc.destBuffer with
    | some db =>
        (s,
         { fc with destBuffer := some (writeFromFrame db start s.returnBuffer) })
    | none => (s, fc)
  else if s.returnDeviceType = DeviceType.midiDevice then
    match fc.bufferForMidiMessages with
    | some mb =>
        ({ s with returnMidiBuffer := [] },
         { fc with bufferForMidiMessages := some (mb ++ s.returnMidiBuffer) })
    | none => (s, fc)
  else (s, fc)

/-- `InsertPlugin::applyToBuffer`: capture, clear, early-exit when no send
device is configured, otherwise restore from the return buffers. -/
def applyToBuffer (s : InsertState) (fc : PluginRenderContext) :
    InsertState × PluginRenderContext :=
  let p := fillSendStep s fc
  let fc2 := clearContextStep fc.bufferStartSample fc.bufferNumSamples p.2
  if p.1.sendDeviceType = DeviceType.noDevice then (p.1, fc2)
  else returnStep p.1 fc2 fc.bufferStartSample

/-- `InsertPlugin::fillSendBuffer`: the device-output path pulls what was
captured this block. -/
def fillSendBuffer (s : InsertState) (destAudio : Option (List (List ℚ)))
    (destMidi : Option (List MidiMessage)) :
    InsertState × Option (List (List ℚ)) × Option (List MidiMessage) :=
  if s.sendDeviceType = DeviceType.audioDevice then
    match destAudio with
    | some da => (s, some (copyIntersection da s.sendBuffer), destMidi)
    | none => (s, destAudio, destMidi)
  else if s.sendDeviceType = DeviceType.midiDevice then
    match destMidi with
    | some ml => ({ s with sendMidiBuffer := [] }, destAudio,
                  some (ml ++ s.sendMidiBuffer))
    | none => (s, destAudio, destMidi)
  else (s, destAudio, destMidi)

/-- `InsertPlugin::fillReturnBuffer`: the device-input path pushes freshly
captured signal into the return buffers (MIDI merges without clearing the
destination). -/
def fillReturnBuffer (s : InsertState) (srcAudio : Option (List (List ℚ)))
    (srcMidi : Option (List MidiMessage)) : InsertState :=
  if s.returnDeviceType = DeviceType.audioDevice then
    match srcAudio with
    | some sa => { s with returnBuffer := copyIntersection s.returnBuffer sa }
    | none => s
  else if s.returnDeviceType = DeviceType.midiDevice then
    match srcMidi with
    | some sm => { s with returnMidiBuffer := s.returnMidiBuffer ++ sm }
    | none => s
  else s

/-- The operations that may run between initialisation and
deinitialisation. -/
inductive PerBlockOp where
  | applyBlock (fc : PluginRenderContext)
  | fillSend (destAudio : Option (List (List ℚ)))
      (destMidi : Option (List MidiMessage))
  | fillReturn (srcAudio : Option (List (List ℚ)))
      (srcMidi : Option (List MidiMessage))

/-- The state component of running one per-block operation. -/
def runOp (s : InsertState) : PerBlockOp → InsertState
  | PerBlockOp.applyBlock fc => (applyToBuffer s fc).1
  | PerBlockOp.fillSend da ml => (fillSendBuffer s da ml).1
  | PerBlockOp.fillReturn sa sm => fillReturnBuffer s sa sm

/-- Two channels of `frames` samples each: the shape `initialise` gives
both audio buffers. -/
def bufferShape (buf : List (List ℚ)) (frames : ℕ) : Prop :=
  buf.map List.length = List.replicate 2 frames

/-! ### Lemmas on the per-block algorithm -/

theorem copyRow_length (d s : List ℚ) : (copyRow d s).length = d.length := by
  simp [copyRow]
  omega

theorem copyIntersection_map_length (dst src : List (List ℚ)) :
    (copyIntersection dst src).map List.length = dst.map List.length := by
  induction dst generalizing src with
  | nil =>
    cases src <;> rfl
  | cons d dst ih =>
    cases src with
    | nil => rfl
    | cons s src =>
      show (copyRow d s :: copyIntersection dst src).map List.length = _
      simp [copyRow_length, ih]

theorem fillSendStep_fst (s : InsertState) (fc : PluginRenderContext) :
    ((fillSendStep s fc).1.sendBuffer.map List.length
        = s.sendBuffer.map List.length) ∧
    (fillSendStep s fc).1.returnBuffer = s.returnBuffer ∧
    (fillSendStep s fc).1.sendDeviceType = s.sendDeviceType := by
  unfold fillSendStep
  split
  · split <;> simp [copyIntersection_map_length]
  · split
    · split <;> simp
    · simp

theorem returnStep_fst_buffers (s : InsertState) (fc : PluginRenderContext)
    (k : ℕ) :
    (returnStep s fc k).1.sendBuffer = s.sendBuffer ∧
    (returnStep s fc k).1.returnBuffer = s.returnBuffer := by
  unfold returnStep
  split
  · split <;> simp
  · split
    · split <;> simp
    · simp

theorem runOp_preserves_shapes (s : InsertState) (op : PerBlockOp) :
    (runOp s op).sendBuffer.map List.length
        = s.sendBuffer.map List.length ∧
    (runOp s op).returnBuffer.map List.length
        = s.returnBuffer.map List.length := by
  cases op with
  | applyBlock fc =>
    simp only [runOp]
    have h1 := fillSendStep_fst s fc
    simp only [applyToBuffer]
    split
    · exact ⟨h1.1, by rw [h1.2.1]⟩
    · have h2 := returnStep_fst_buffers (fillSendStep s fc).1
        (clearContextStep fc.bufferStartSample fc.bufferNumSamples
          (fillSendStep s fc).2) fc.bufferStartSample
      constructor
      · rw [h2.1, h1.1]
      · rw [h2.2, h1.2.1]
  | fillSend da ml =>
    simp only [runOp]
    unfold fillSendBuffer
    split
    · split <;> simp
    · split
      · split <;> simp
      · simp
  | fillReturn sa sm =>
    simp only [runOp]
    unfold fillReturnBuffer
    split
    · split <;> simp [copyIntersection_map_length]
    · split
      · split <;> simp
      · simp

theorem fillSendStep_noDevice (s : InsertState) (fc : PluginRenderContext)
    (h : s.sendDeviceType = DeviceType.noDevice) :
    fillSendStep s fc = (s, fc) := by
  unfold fillSendStep
  rw [h]
  simp

/-! ### Claim theorems about the per-block algorithm -/

/-- C5: when the send capability is `noDevice`, `applyToBuffer` leaves the
whole insert state (send audio buffer, send MIDI buffer, return audio
buffer, return MIDI buffer) unchanged, while the context comes back with
the destination samples of the block's range cleared and the live MIDI
event list cleared — the early-exit path touches nothing else. -/
theorem applyToBuffer_noDevice (s : InsertState) (fc : PluginRenderContext)
    (h : s.sendDeviceType = DeviceType.noDevice) :
    applyToBuffer s fc =
      (s,
       { fc with
           destBuffer := (fc.destBuffer.map
             (fun db => clearRange db fc.bufferStartSample
                fc.bufferNumSamples)),
           bufferForMidiMessages :=
             fc.bufferForMidiMessages.map (fun _ => []) }) := by
  simp only [applyToBuffer]
  rw [fillSendStep_noDevice s fc h]
  rw [if_pos h]
  rfl

/-- The insert state of a witness run with no send device configured. -/
def noSendState : InsertState :=
  ⟨[[1, 2], [3, 4]], [[5, 6], [7, 8]], [9], [10],
   DeviceType.noDevice, DeviceType.audioDevice, 0, 0⟩

/-- A witness render context: one channel of four samples, block range
[1, 3), one live MIDI event. -/
def sampleContext : PluginRenderContext :=
  ⟨some [[1, 1, 1, 1]], 1, 2, some [7]⟩

/-- Witness for C5: the early-exit block leaves the state untouched and
clears exactly samples 1 and 2 and the MIDI list. -/
theorem applyToBuffer_noDevice_witness :
    noSendState.sendDeviceType = DeviceType.noDevice ∧
    applyToBuffer noSendState sampleContext =
      (noSendState, ⟨some [[1, 0, 0, 1]], 1, 2, some []⟩) := by
  refine ⟨rfl, ?_⟩
  rw [applyToBuffer_noDevice noSendState sampleContext rfl]
  decide

/-- An insert state whose manual latency adjustment is 10 ms. -/
def adjustedState : InsertState :=
  ⟨[], [], [], [], DeviceType.noDevice, DeviceType.noDevice, 0, 10⟩

/-- C8: after (re)initialisation the reported latency is
`manualAdjustMs / 1000 + blockSize / sampleRate`; at block size 512,
sample rate 48000 and 10 ms adjustment this is 1/100 + 512/48000, within
10⁻⁶ of 0.0206667. -/
theorem latency_model (s : InsertState) (info : PluginInitialisationInfo) :
    getLatencySeconds (initialise s info)
        = s.manualAdjustMs / 1000
            + (info.blockSizeSamples : ℚ) / info.sampleRate ∧
    getLatencySeconds (initialiseWithoutStopping s info)
        = s.manualAdjustMs / 1000
            + (info.blockSizeSamples : ℚ) / info.sampleRate ∧
    getLatencySeconds (initialise adjustedState ⟨512, 48000⟩)
        = 1/100 + 512/48000 ∧
    |getLatencySeconds (initialise adjustedState ⟨512, 48000⟩)
        - 206667/10000000| < 1/1000000 := by
  refine ⟨rfl, rfl, ?_, ?_⟩
  · norm_num [getLatencySeconds, initialise, initialiseWithoutStopping,
      adjustedState]
  · rw [abs_sub_lt_iff]
    constructor <;>
      norm_num [getLatencySeconds, initialise, initialiseWithoutStopping,
        adjustedState]

/-- C9: `initialise` sizes both audio buffers to 2 × blockSize, and every
sequence of per-block operations (`applyToBuffer`, `fillSendBuffer`,
`fillReturnBuffer`) preserves those dimensions — only
(de)initialisation resizes. -/
theorem buffers_keep_block_size (s0 : InsertState)
    (info : PluginInitialisationInfo) (ops : List PerBlockOp) :
    bufferShape ((ops.foldl runOp (initialise s0 info)).sendBuffer)
        info.blockSizeSamples ∧
    bufferShape ((ops.foldl runOp (initialise s0 info)).returnBuffer)
        info.blockSizeSamples := by
  suffices h : ∀ s : InsertState,
      bufferShape s.sendBuffer info.blockSizeSamples →
      bufferShape s.returnBuffer info.blockSizeSamples →
      bufferShape ((ops.foldl runOp s).sendBuffer) info.blockSizeSamples ∧
      bufferShape ((ops.foldl runOp s).returnBuffer)
        info.blockSizeSamples by
    refine h (initialise s0 info) ?_ ?_ <;>
      simp [initialise, initialiseWithoutStopping, zeroBuffer, bufferShape]
  induction ops with
  | nil => exact fun s h1 h2 => ⟨h1, h2⟩
  | cons op ops ih =>
    intro s h1 h2
    have hp := runOp_preserves_shapes s op
    refine ih (runOp s op) ?_ ?_
    · unfold bufferShape at h1 ⊢
      rw [hp.1]
      exact h1
    · unfold bufferShape at h2 ⊢
      rw [hp.2]
      exact h2

end Tracktion
